import Mathlib

/-!
Verification development for the SR-Profitability dashboard engine
(src/app.py).  The aggregation pipeline of the app is shallowly embedded:

* monetary amounts are modelled by rationals (the float arithmetic of
  pandas is exact on the sums and differences used here, up to the usual
  floating tolerance the specification already allows);
* the IEEE special values that pandas produces on division by zero are
  modelled explicitly by the type `PFloat` (`nan`, `posInf`, `negInf`):
  numpy division by zero never raises, it yields NaN for 0/0 and a signed
  infinity otherwise;
* a raw Excel sheet (the output of `pd.read_excel`) is a `RawTable`:
  per-column presence flags plus a list of raw rows whose cells are either
  numeric, empty (NaN), or text.  `Series.fillna(0)` replaces only the
  empty cells; a text cell survives `fillna` and later makes the
  column arithmetic (`df[cost_columns].sum(axis=1)`, `df.NET - ...`)
  raise a `TypeError`, which the blanket `except` of
  `load_and_process_data` converts into an error return (`None`);
* fallible steps return `Except LoadError`, mirroring the `st.error` +
  `return None` paths of `load_and_process_data` and the exceptions that
  escape `main`.
-/

namespace SRProfit

/-- A pandas/numpy float-valued cell outcome: either an actual (rational)
number or one of the IEEE special values produced by division by zero. -/
inductive PFloat where
  | num (q : ℚ)
  | nan
  | posInf
  | negInf
deriving DecidableEq, Repr

/-- IEEE division of two ordinary numbers, as numpy performs it on float
columns: a nonzero denominator divides exactly, `0/0` is NaN, and `x/0`
for nonzero `x` is a signed infinity.  No exception is ever raised. -/
def pdiv (a b : ℚ) : PFloat :=
  if b ≠ 0 then .num (a / b)
  else if a = 0 then .nan
  else if 0 < a then .posInf
  else .negInf

/-- Multiplication by the positive constant 100 (`* 100` on a float
column); NaN and the infinities are preserved. -/
def PFloat.mul100 : PFloat → PFloat
  | .num q => .num (q * 100)
  | .nan => .nan
  | .posInf => .posInf
  | .negInf => .negInf

/-- Round-half-to-even on rationals, the rounding used by
`numpy.round`/`Series.round`. -/
def roundHalfEven (x : ℚ) : ℤ :=
  let f := ⌊x⌋
  let frac := x - f
  if frac < 1 / 2 then f
  else if 1 / 2 < frac then f + 1
  else if Even f then f else f + 1

/-- `Series.round(2)`: round an ordinary number to two decimal places
(half to even); NaN and the infinities round to themselves. -/
def PFloat.round2 : PFloat → PFloat
  | .num q => .num ((roundHalfEven (q * 100) : ℚ) / 100)
  | .nan => .nan
  | .posInf => .posInf
  | .negInf => .negInf

/-- `calculate_margin` (src/app.py:224).  Inputs reaching it are sums of
`fillna(0)`-normalised columns, hence ordinary numbers, modelled as
rationals; the `pd.isna(revenue)` guard of the source is vacuous on such
inputs.  Returns `0` on zero revenue, otherwise `profit / revenue * 100`. -/
def calculate_margin (profit revenue : ℚ) : ℚ :=
  if revenue = 0 then 0 else profit / revenue * 100

/-- A calendar date as produced by `pd.to_datetime` (year, month, day). -/
structure Date where
  year : ℕ
  month : ℕ
  day : ℕ
deriving DecidableEq, Repr

/-- Chronological (lexicographic) order on dates. -/
def Date.le (a b : Date) : Prop :=
  a.year < b.year ∨
    (a.year = b.year ∧ (a.month < b.month ∨ (a.month = b.month ∧ a.day ≤ b.day)))

instance : DecidableRel Date.le := fun a b => by
  unfold Date.le; infer_instance

theorem Date.le_total (a b : Date) : Date.le a b ∨ Date.le b a := by
  unfold Date.le; omega

theorem Date.le_trans {a b c : Date} (h1 : Date.le a b) (h2 : Date.le b c) :
    Date.le a c := by
  unfold Date.le at *; omega

/-- The order used to display the raw table newest-first: row `a` may come
before row `b` when the date of `b` is not after the date of `a`. -/
def dateGe (a b : Date) : Prop := Date.le b a

instance : DecidableRel dateGe := fun a b => by
  unfold dateGe; infer_instance

instance : IsTotal Date dateGe :=
  ⟨fun a b => (Date.le_total b a).elim Or.inl Or.inr⟩

instance : IsTrans Date dateGe :=
  ⟨fun _ _ _ h1 h2 => Date.le_trans h2 h1⟩

/-- Chronological order on year-month period keys, the order of pandas
`Period[M]` values (`YEAR_MONTH` column). -/
def perLe (a b : ℕ × ℕ) : Prop :=
  a.1 < b.1 ∨ (a.1 = b.1 ∧ a.2 ≤ b.2)

instance : DecidableRel perLe := fun a b => by
  unfold perLe; infer_instance

instance : IsTotal (ℕ × ℕ) perLe := ⟨fun a b => by unfold perLe; omega⟩

instance : IsTrans (ℕ × ℕ) perLe := ⟨fun a b c h1 h2 => by
  unfold perLe at *; omega⟩

instance : IsAntisymm (ℕ × ℕ) perLe := ⟨fun a b h1 h2 => by
  unfold perLe at *
  have : a.1 = b.1 ∧ a.2 = b.2 := by omega
  exact Prod.ext this.1 this.2⟩

/-- A cell of a monetary column as read by `pd.read_excel`: a number, an
empty cell (NaN), or a non-numeric text value (kept as a Python `str`). -/
inductive Cell where
  | num (q : ℚ)
  | na
  | text (s : String)
deriving DecidableEq, Repr

/-- A cell of the `ORD DT` column: either a value `pd.to_datetime`
parses to a calendar date, or one it raises on. -/
inductive DateCell where
  | date (d : Date)
  | unparseable
deriving DecidableEq, Repr

/-- One raw spreadsheet row.  Cells of columns absent from the sheet are
ignored (the presence flags live on `RawTable`). -/
structure RawRow where
  ordDt : DateCell
  net : Cell
  puCost : Cell
  shipCost : Cell
  manCost : Cell
  delCost : Cell
deriving DecidableEq, Repr

/-- A raw uploaded sheet: which columns are present, and the rows. -/
structure RawTable where
  hasOrdDt : Bool
  hasNet : Bool
  hasPuCost : Bool
  hasShipCost : Bool
  hasManCost : Bool
  hasDelCost : Bool
  rows : List RawRow
deriving DecidableEq, Repr

/-- The failure modes of `load_and_process_data`: a missing mandatory
column reported by name via `st.error` (schema), an exception from
`pd.to_datetime` on an unparseable date (parse), or a `TypeError` from
arithmetic on a text cell - the last two are both caught by the blanket
`except` and also end in `st.error` + `return None`. -/
inductive LoadError where
  | schemaError (col : String)
  | parseError
  | typeError
deriving DecidableEq, Repr

/-- A fully processed row of the enriched DataFrame returned by
`load_and_process_data`: parsed date plus the five numeric columns. -/
structure Row where
  ordDt : Date
  net : ℚ
  puCost : ℚ
  shipCost : ℚ
  manCost : ℚ
  delCost : ℚ
deriving DecidableEq, Repr

/-- Derived column `TOTAL_COSTS` (src/app.py:262): sum of the four cost
components. -/
def Row.totalCosts (r : Row) : ℚ :=
  r.puCost + r.shipCost + r.manCost + r.delCost

/-- Derived column `PROFIT` (src/app.py:265): revenue minus total cost. -/
def Row.profit (r : Row) : ℚ := r.net - r.totalCosts

/-- Derived column `YEAR_MONTH` (src/app.py:271): the year-month period
of the order date. -/
def Row.periodKey (r : Row) : ℕ × ℕ := (r.ordDt.year, r.ordDt.month)

/-- `strftime` month abbreviation for the display label. -/
def monthName : ℕ → String
  | 1 => "Jan" | 2 => "Feb" | 3 => "Mar" | 4 => "Apr"
  | 5 => "May" | 6 => "Jun" | 7 => "Jul" | 8 => "Aug"
  | 9 => "Sep" | 10 => "Oct" | 11 => "Nov" | 12 => "Dec"
  | _ => ""

/-- Derived column `MONTH_YEAR_STR` (src/app.py:272): the
`strftime` label of a period key, e.g. `Jan 2024`. -/
def displayLabel (k : ℕ × ℕ) : String :=
  monthName k.2 ++ " " ++ toString k.1

/-- `Series.fillna(0)`: an empty cell becomes the number 0; numeric and
text cells are unchanged. -/
def fillna0 : Cell → Cell
  | .na => .num 0
  | c => c

/-- The value a cell contributes to column arithmetic: a number is used
as is, while a text cell raises `TypeError` (numpy cannot add a float and
a `str`).  An empty cell cannot reach arithmetic here because every
monetary column is `fillna(0)`-filled (or replaced by zeros) first; for
totality it is mapped to its NaN-as-zero effect. -/
def evalCell : Cell → Except LoadError ℚ
  | .num q => .ok q
  | .na => .ok 0
  | .text _ => .error .typeError

/-- The cell of a cost column after the loop at src/app.py:248: a present
column is `fillna(0)`-filled, an absent one is the constant 0. -/
def getCost (has : Bool) (c : Cell) : Cell :=
  if has then fillna0 c else .num 0

/-- `pd.to_datetime` on one cell: a parseable value yields its date, an
unparseable one raises (caught by the blanket `except`). -/
def parseDateCell : DateCell → Except LoadError Date
  | .date d => .ok d
  | .unparseable => .error .parseError

/-- Apply a fallible step to every element; the first failure aborts the
whole list, as a raised exception aborts a vectorised pandas operation. -/
def collect (f : α → Except LoadError β) : List α → Except LoadError (List β)
  | [] => .ok []
  | a :: as => do
      let b ← f a
      let bs ← collect f as
      pure (b :: bs)

/-- Build one enriched row from a raw row and its parsed date: evaluate
the four (filled) cost cells - the `TOTAL_COSTS` sum raises first on a
text cost cell - then the filled revenue cell (`PROFIT` raises on a text
`NET` cell). -/
def buildRow (t : RawTable) (rr : RawRow) (d : Date) : Except LoadError Row := do
  let pu ← evalCell (getCost t.hasPuCost rr.puCost)
  let ship ← evalCell (getCost t.hasShipCost rr.shipCost)
  let man ← evalCell (getCost t.hasManCost rr.manCost)
  let del ← evalCell (getCost t.hasDelCost rr.delCost)
  let net ← evalCell (fillna0 rr.net)
  pure ⟨d, net, pu, ship, man, del⟩

/-- `load_and_process_data` (src/app.py:231), in the order of the source:
check the `ORD DT` column exists, parse every date (`pd.to_datetime` over
the whole column), fill the cost columns, check the `NET` column exists
and fill it, then compute the derived columns - where arithmetic on any
surviving text cell raises a `TypeError` caught by the blanket `except`. -/
def load_and_process_data (t : RawTable) : Except LoadError (List Row) :=
  if t.hasOrdDt then
    match collect (fun rr => parseDateCell rr.ordDt) t.rows with
    | .error e => .error e
    | .ok dates =>
        if t.hasNet then
          collect (fun p => buildRow t p.1 p.2) (t.rows.zip dates)
        else .error (.schemaError "NET")
  else .error (.schemaError "ORD DT")

/-- The rows of a period group: `groupby('YEAR_MONTH')` membership. -/
def groupRows (rows : List Row) (k : ℕ × ℕ) : List Row :=
  rows.filter (fun r => r.periodKey = k)

/-- The distinct period keys present in the data. -/
def periodKeys (rows : List Row) : List (ℕ × ℕ) :=
  (rows.map Row.periodKey).dedup

/-- The distinct period keys in chronological order: `groupby` sorts its
keys and `sort_values('Period')` (src/app.py:302) sorts again. -/
def sortedKeys (rows : List Row) : List (ℕ × ℕ) :=
  List.insertionSort perLe (periodKeys rows)

/-- One row of the monthly summary DataFrame (after the column renaming
at src/app.py:294). -/
structure MonthRow where
  period : ℕ × ℕ
  month : String
  revenue : ℚ
  totalCosts : ℚ
  profit : ℚ
  puCost : ℚ
  shipCost : ℚ
  manCost : ℚ
  delCost : ℚ
  orders : ℕ
  marginPct : ℚ
deriving DecidableEq, Repr

/-- The aggregate row of one period group: the `agg` sums, the `ORD DT`
count, and the margin computed by `calculate_margin` from the summed
profit and revenue (src/app.py:297). -/
def mkMonthRow (rows : List Row) (k : ℕ × ℕ) : MonthRow :=
  let g := groupRows rows k
  { period := k
    month := displayLabel k
    revenue := (g.map Row.net).sum
    totalCosts := (g.map Row.totalCosts).sum
    profit := (g.map Row.profit).sum
    puCost := (g.map Row.puCost).sum
    shipCost := (g.map Row.shipCost).sum
    manCost := (g.map Row.manCost).sum
    delCost := (g.map Row.delCost).sum
    orders := g.length
    marginPct := calculate_margin (g.map Row.profit).sum (g.map Row.net).sum }

/-- `create_monthly_summary` (src/app.py:281): group by year-month, sum
the monetary columns, count orders, compute the per-period margin from
the sums, and sort chronologically. -/
def create_monthly_summary (rows : List Row) : List MonthRow :=
  (sortedKeys rows).map (mkMonthRow rows)

/-- One row of the cost-breakdown DataFrame. -/
structure BreakdownRow where
  costType : String
  amount : ℚ
  percentage : PFloat
deriving DecidableEq, Repr

/-- The four (category, dataset-wide sum) pairs of `cost_data`
(src/app.py:309). -/
def breakdownBase (rows : List Row) : List (String × ℚ) :=
  [("Pickup Cost", (rows.map Row.puCost).sum),
   ("Shipping Cost", (rows.map Row.shipCost).sum),
   ("Management Cost", (rows.map Row.manCost).sum),
   ("Delivery Cost", (rows.map Row.delCost).sum)]

/-- Descending-amount order used by `sort_values('Amount',
ascending=False)` (src/app.py:322). -/
def amtGe (a b : BreakdownRow) : Prop := b.amount ≤ a.amount

instance : DecidableRel amtGe := fun a b => by
  unfold amtGe; infer_instance

instance : IsTotal BreakdownRow amtGe := ⟨fun a b => le_total b.amount a.amount⟩

instance : IsTrans BreakdownRow amtGe :=
  ⟨fun _ _ _ h1 h2 => le_trans h2 h1⟩

/-- `create_cost_breakdown` (src/app.py:307): sum each cost component
over the whole dataset, divide each sum by the grand total (numpy float
division - no zero-denominator guard), scale to percent, round to two
decimals, then sort by descending amount. -/
def create_cost_breakdown (rows : List Row) : List BreakdownRow :=
  let base := breakdownBase rows
  let total := (base.map Prod.snd).sum
  let withPct := base.map
    (fun p => BreakdownRow.mk p.1 p.2 ((pdiv p.2 total).mul100.round2))
  List.insertionSort amtGe withPct

/-- Dataset total `df.NET.sum()` (src/app.py:631). -/
def totalRevenue (rows : List Row) : ℚ := (rows.map Row.net).sum

/-- Dataset total `df.TOTAL_COSTS.sum()` (src/app.py:632). -/
def totalCostsSum (rows : List Row) : ℚ := (rows.map Row.totalCosts).sum

/-- Dataset total `df.PROFIT.sum()` (src/app.py:633). -/
def totalProfit (rows : List Row) : ℚ := (rows.map Row.profit).sum

/-- `overall_margin` (src/app.py:634). -/
def overallMargin (rows : List Row) : ℚ :=
  calculate_margin (totalProfit rows) (totalRevenue rows)

/-- Newest-first order on enriched rows, comparing order dates. -/
def rowDateGe (a b : Row) : Prop := dateGe a.ordDt b.ordDt

instance : DecidableRel rowDateGe := fun a b => by
  unfold rowDateGe; infer_instance

instance : IsTotal Row rowDateGe :=
  ⟨fun a b => IsTotal.total (r := dateGe) a.ordDt b.ordDt⟩

instance : IsTrans Row rowDateGe :=
  ⟨fun _ _ _ h1 h2 => IsTrans.trans (r := dateGe) _ _ _ h1 h2⟩

/-- The raw-data table as displayed on screen (src/app.py:787):
`sort_values('ORD DT', ascending=False)`, newest order first. -/
def rawDisplay (rows : List Row) : List Row :=
  List.insertionSort rowDateGe rows

/-- The rows of the downloadable raw CSV (src/app.py:793):
`df.to_csv(index=False)` writes the enriched DataFrame in its existing
row order - the display-only sort above is not applied to it. -/
def csvRawExport (rows : List Row) : List Row := rows

/-- `df.ORD_DT.min()`: `None` models the NaT returned on an empty
column. -/
def dateMinOf : List Row → Option Date
  | [] => none
  | r :: rs =>
      some (rs.foldl (fun d r2 => if Date.le r2.ordDt d then r2.ordDt else d) r.ordDt)

/-- `df.ORD_DT.max()`: `None` models the NaT returned on an empty
column. -/
def dateMaxOf : List Row → Option Date
  | [] => none
  | r :: rs =>
      some (rs.foldl (fun d r2 => if Date.le d r2.ordDt then r2.ordDt else d) r.ordDt)

/-- What can abort `main` after a successful upload: a load failure
(reported via `st.error`), or the uncaught `ValueError` raised by
`NaT.strftime` when the date range of an empty frame is formatted
(src/app.py:638). -/
inductive RunError where
  | load (e : LoadError)
  | emptyDateRange
deriving DecidableEq, Repr

/-- The engine output assembled by `main` for presentation. -/
structure Output where
  monthly : List MonthRow
  breakdown : List BreakdownRow
  revenue : ℚ
  costs : ℚ
  profit : ℚ
  margin : ℚ
  orders : ℕ
  dateMin : Date
  dateMax : Date
deriving DecidableEq, Repr

/-- The summary-construction path of `main` (src/app.py:623): load, build
the monthly and cost summaries and the totals, then format the date
range - `min().strftime` and `max().strftime` raise on an empty frame
(NaT), before anything is rendered. -/
def runMain (t : RawTable) : Except RunError Output :=
  match load_and_process_data t with
  | .error e => .error (.load e)
  | .ok rows =>
      let monthly := create_monthly_summary rows
      let breakdown := create_cost_breakdown rows
      match dateMinOf rows, dateMaxOf rows with
      | some dmin, some dmax =>
          .ok { monthly := monthly
                breakdown := breakdown
                revenue := totalRevenue rows
                costs := totalCostsSum rows
                profit := totalProfit rows
                margin := overallMargin rows
                orders := rows.length
                dateMin := dmin
                dateMax := dmax }
      | _, _ => .error .emptyDateRange

/-- The date carried by a parseable date cell. -/
def dOf : DateCell → Date
  | .date d => d
  | .unparseable => ⟨0, 0, 0⟩

/-- Whether a date cell parses. -/
def DateCell.isDate : DateCell → Bool
  | .date _ => true
  | .unparseable => false

/-- Whether a monetary cell survives arithmetic: numbers and empty cells
do, text cells raise. -/
def Cell.isClean : Cell → Bool
  | .text _ => false
  | _ => true

/-- The number a cell contributes after `fillna(0)`: its value for a
numeric cell, `0` for an empty one (text cells contribute nothing - they
raise instead). -/
def Cell.numVal : Cell → ℚ
  | .num q => q
  | _ => 0

/-- Whether every monetary cell of a raw row that belongs to a present
column survives arithmetic. -/
def rawRowClean (t : RawTable) (rr : RawRow) : Bool :=
  (!t.hasPuCost || rr.puCost.isClean) && (!t.hasShipCost || rr.shipCost.isClean)
    && (!t.hasManCost || rr.manCost.isClean) && (!t.hasDelCost || rr.delCost.isClean)
    && rr.net.isClean

/-- The enriched row that normalization produces from a clean raw row:
each monetary field is the cell value with missing cells as `0`, and the
fields of absent cost columns are `0`. -/
def expectedRow (t : RawTable) (rr : RawRow) (d : Date) : Row :=
  { ordDt := d
    net := rr.net.numVal
    puCost := if t.hasPuCost then rr.puCost.numVal else 0
    shipCost := if t.hasShipCost then rr.shipCost.numVal else 0
    manCost := if t.hasManCost then rr.manCost.numVal else 0
    delCost := if t.hasDelCost then rr.delCost.numVal else 0 }

/-- Modelled from the spec: the mean of the per-row margins of a group of
rows.  This is the alternative computation that the Period Aggregator is
specified NOT to use; it exists here only to be compared with the margin
the code actually produces. -/
def meanRowMargins (rows : List Row) : ℚ :=
  (rows.map (fun r => calculate_margin r.profit r.net)).sum / rows.length

/-- A concrete order with zero revenue and zero costs. -/
def rowZero : Row := ⟨⟨2024, 1, 1⟩, 0, 0, 0, 0, 0⟩

/-- A concrete dataset whose single January group mixes a fully
profitable row with a zero-revenue row: the margin of the summed group
(100) differs from the mean of the per-row margins (50). -/
def exMix : List Row :=
  [⟨⟨2024, 1, 1⟩, 100, 0, 0, 0, 0⟩, ⟨⟨2024, 1, 2⟩, 0, 0, 0, 0, 0⟩]

/-- A concrete enriched order dated January 2024. -/
def rowOld : Row := ⟨⟨2024, 1, 1⟩, 10, 1, 1, 1, 1⟩

/-- A concrete enriched order dated February 2024. -/
def rowNew : Row := ⟨⟨2024, 2, 1⟩, 20, 2, 2, 2, 2⟩

/-- A fully numeric raw row dated January 2024. -/
def rrGood : RawRow := ⟨.date ⟨2024, 1, 1⟩, .num 5, .num 1, .num 1, .num 1, .num 1⟩

/-- A raw row whose order-date cell does not parse. -/
def rrBad : RawRow := ⟨.unparseable, .num 3, .num 1, .num 1, .num 1, .num 1⟩

/-- A raw row whose pickup-cost cell holds non-numeric text. -/
def rrText : RawRow := ⟨.date ⟨2024, 1, 1⟩, .num 5, .text "N/A", .num 1, .num 1, .num 1⟩

/-- A raw row with several empty (NaN) monetary cells. -/
def rrNa : RawRow := ⟨.date ⟨2024, 2, 3⟩, .na, .na, .num 7, .na, .na⟩

/-- A sheet with every column except the revenue column `NET`. -/
def tNoNet : RawTable := ⟨true, false, true, true, true, true, [rrGood]⟩

/-- A sheet with the two mandatory columns but none of the four cost
columns. -/
def tNoCosts : RawTable :=
  ⟨true, true, false, false, false, false, [⟨.date ⟨2024, 1, 1⟩, .num 5, .na, .na, .na, .na⟩]⟩

/-- A sheet containing one good row and one row with an unparseable
date. -/
def tBadDate : RawTable := ⟨true, true, true, true, true, true, [rrGood, rrBad]⟩

/-- A sheet containing a text value in a cost cell. -/
def tTextCost : RawTable := ⟨true, true, true, true, true, true, [rrText]⟩

/-- A sheet whose single row has several empty monetary cells. -/
def tNaCells : RawTable := ⟨true, true, true, true, true, true, [rrNa]⟩

/-- A schema-complete sheet with zero data rows. -/
def tEmpty : RawTable := ⟨true, true, true, true, true, true, []⟩

/-- A fully numeric sheet with a January order followed by a February
order, i.e. oldest first. -/
def tTwoOrders : RawTable :=
  ⟨true, true, true, true, true, true,
   [⟨.date ⟨2024, 1, 1⟩, .num 10, .num 1, .num 1, .num 1, .num 1⟩,
    ⟨.date ⟨2024, 2, 1⟩, .num 20, .num 2, .num 2, .num 2, .num 2⟩]⟩

/-! Helper lemmas about list sums, the fallible `collect` pass, and the
building blocks of the pipeline. -/

theorem sum_filter_split {α : Type _} (p : α → Prop) [DecidablePred p]
    (f : α → ℚ) (l : List α) :
    ((l.filter (fun a => p a)).map f).sum
      + ((l.filter (fun a => ¬ p a)).map f).sum = (l.map f).sum := by
  induction l with
  | nil => simp
  | cons a as ih =>
      simp only [decide_not] at ih
      by_cases h : p a <;> simp [List.filter_cons, h] <;> linarith [ih]

theorem sum_over_keys {α K : Type _} [DecidableEq K] (key : α → K) (f : α → ℚ) :
    ∀ ks : List K, ks.Nodup → ∀ l : List α, (∀ a ∈ l, key a ∈ ks) →
      (ks.map (fun k => ((l.filter (fun a => key a = k)).map f).sum)).sum
        = (l.map f).sum := by
  intro ks
  induction ks with
  | nil =>
      intro _ l hcov
      cases l with
      | nil => simp
      | cons a as => exact absurd (hcov a (List.mem_cons_self a as)) (List.not_mem_nil _)
  | cons k ks ih =>
      intro hnd l hcov
      have hknot : k ∉ ks := (List.nodup_cons.mp hnd).1
      have hnd' : ks.Nodup := (List.nodup_cons.mp hnd).2
      have hcov' : ∀ a ∈ l.filter (fun a => ¬ key a = k), key a ∈ ks := by
        intro a ha
        have hmem := List.mem_filter.mp ha
        have h2 : ¬ key a = k := by simpa using hmem.2
        rcases List.mem_cons.mp (hcov a hmem.1) with h | h
        · exact absurd h h2
        · exact h
      have hfib : ∀ k2 ∈ ks,
          ((l.filter (fun a => ¬ key a = k)).filter (fun a => key a = k2))
            = l.filter (fun a => key a = k2) := by
        intro k2 hk2
        rw [List.filter_filter]
        apply List.filter_congr
        intro a _
        by_cases h : key a = k2
        · have hk2k : ¬ k2 = k := fun hkk => hknot (hkk ▸ hk2)
          have hne : ¬ key a = k := fun hk => hk2k ((h.symm.trans hk))
          simp [h, hne, hk2k]
        · simp [h]
      have hics : (ks.map (fun k2 =>
            ((l.filter (fun a => key a = k2)).map f).sum)).sum
          = ((l.filter (fun a => ¬ key a = k)).map f).sum := by
        rw [← ih hnd' (l.filter (fun a => ¬ key a = k)) hcov']
        apply congrArg List.sum
        apply List.map_congr_left
        intro k2 hk2
        rw [hfib k2 hk2]
      simp only [List.map_cons, List.sum_cons, hics]
      exact sum_filter_split (fun a => key a = k) f l

theorem sum_totalCosts (rows : List Row) :
    (rows.map Row.totalCosts).sum
      = (rows.map Row.puCost).sum + (rows.map Row.shipCost).sum
        + (rows.map Row.manCost).sum + (rows.map Row.delCost).sum := by
  induction rows with
  | nil => simp
  | cons r rs ih =>
      simp only [List.map_cons, List.sum_cons, ih, Row.totalCosts]
      ring

theorem sum_breakdownBase (rows : List Row) :
    ((breakdownBase rows).map Prod.snd).sum = totalCostsSum rows := by
  simp only [breakdownBase, List.map_cons, List.map_nil, List.sum_cons,
    List.sum_nil, totalCostsSum, sum_totalCosts]
  ring

theorem exBind_ok {α β : Type _} (a : α) (f : α → Except LoadError β) :
    (Except.ok a >>= f) = f a := rfl

theorem exBind_error {α β : Type _} (e : LoadError) (f : α → Except LoadError β) :
    ((Except.error e : Except LoadError α) >>= f) = Except.error e := rfl

theorem collect_map_ok {α β : Type _} {f : α → Except LoadError β} (g : α → β) :
    ∀ {l : List α}, (∀ a ∈ l, f a = .ok (g a)) → collect f l = .ok (l.map g) := by
  intro l
  induction l with
  | nil => intro _; rfl
  | cons a as ih =>
      intro h
      have ha := h a (List.mem_cons_self a as)
      have hrest := ih (fun x hx => h x (List.mem_cons_of_mem a hx))
      simp only [collect, ha, hrest, exBind_ok, List.map_cons]
      rfl

theorem collect_error_of_only {α β : Type _} {f : α → Except LoadError β}
    {e : LoadError} (hOnly : ∀ a, (∃ b, f a = .ok b) ∨ f a = .error e) :
    ∀ {l : List α}, (∃ a ∈ l, f a = .error e) → collect f l = .error e := by
  intro l
  induction l with
  | nil => rintro ⟨a, ha, _⟩; exact absurd ha (List.not_mem_nil a)
  | cons a as ih =>
      rintro ⟨x, hx, hxe⟩
      rcases hOnly a with ⟨b, hb⟩ | hb
      · have hx' : x ∈ as := by
          rcases List.mem_cons.mp hx with h | h
          · subst h; rw [hxe] at hb; exact absurd hb (by simp)
          · exact h
        have hrest := ih ⟨x, hx', hxe⟩
        simp only [collect, hb, hrest, exBind_ok, exBind_error]
      · simp only [collect, hb, exBind_error]

theorem collect_map_list {α β γ : Type _} (f : β → Except LoadError γ)
    (h : α → β) : ∀ l : List α, collect f (l.map h) = collect (fun a => f (h a)) l := by
  intro l
  induction l with
  | nil => rfl
  | cons a as ih => simp only [List.map_cons, collect, ih]

theorem parseDateCell_ok {c : DateCell} (h : c.isDate = true) :
    parseDateCell c = .ok (dOf c) := by
  cases c with
  | date d => rfl
  | unparseable => simp [DateCell.isDate] at h

theorem evalCell_ok_of_clean {c : Cell} (h : c.isClean = true) :
    evalCell c = .ok c.numVal := by
  cases c <;> first | rfl | simp [Cell.isClean] at h

theorem evalCell_getCost_ok {has : Bool} {c : Cell} (h : has = false ∨ c.isClean = true) :
    evalCell (getCost has c) = .ok (if has then c.numVal else 0) := by
  rcases h with h | h
  · subst h; rfl
  · cases has with
    | false => rfl
    | true =>
        cases c with
        | num q => rfl
        | na => rfl
        | text s => simp [Cell.isClean] at h

theorem buildRow_ok {t : RawTable} {rr : RawRow} {d : Date}
    (h : rawRowClean t rr = true) :
    buildRow t rr d = .ok (expectedRow t rr d) := by
  have hflags := h
  simp only [rawRowClean, Bool.and_eq_true, Bool.or_eq_true, Bool.not_eq_true'] at hflags
  obtain ⟨⟨⟨⟨hpu, hship⟩, hman⟩, hdel⟩, hnet⟩ := hflags
  have h1 := evalCell_getCost_ok hpu
  have h2 := evalCell_getCost_ok hship
  have h3 := evalCell_getCost_ok hman
  have h4 := evalCell_getCost_ok hdel
  have h5 : evalCell (fillna0 rr.net) = .ok rr.net.numVal := by
    cases hc : rr.net with
    | num q => rfl
    | na => rfl
    | text s => rw [hc] at hnet; simp [Cell.isClean] at hnet
  simp only [buildRow, h1, h2, h3, h4, h5, exBind_ok]
  rfl

theorem buildRow_ok_or (t : RawTable) (rr : RawRow) (d : Date) :
    (∃ row, buildRow t rr d = .ok row) ∨ buildRow t rr d = .error .typeError := by
  have ecases : ∀ c : Cell, evalCell c = .ok c.numVal ∨ evalCell c = .error .typeError := by
    intro c; cases c with
    | num q => exact Or.inl rfl
    | na => exact Or.inl rfl
    | text s => exact Or.inr rfl
  unfold buildRow
  rcases ecases (getCost t.hasPuCost rr.puCost) with h1 | h1 <;>
    rw [h1] <;> try exact Or.inr rfl
  rcases ecases (getCost t.hasShipCost rr.shipCost) with h2 | h2 <;>
    rw [exBind_ok, h2] <;> try exact Or.inr rfl
  rcases ecases (getCost t.hasManCost rr.manCost) with h3 | h3 <;>
    rw [exBind_ok, h3] <;> try exact Or.inr rfl
  rcases ecases (getCost t.hasDelCost rr.delCost) with h4 | h4 <;>
    rw [exBind_ok, h4] <;> try exact Or.inr rfl
  rcases ecases (fillna0 rr.net) with h5 | h5 <;>
    rw [exBind_ok, h5] <;> [skip; exact Or.inr rfl]
  exact Or.inl ⟨_, rfl⟩

theorem getCost_ok_clean {has : Bool} {c : Cell} {v : ℚ}
    (h : evalCell (getCost has c) = .ok v) : (!has || c.isClean) = true := by
  cases has with
  | false => rfl
  | true =>
      cases c with
      | num q => rfl
      | na => rfl
      | text s => exact absurd h (by simp [getCost, fillna0, evalCell])

theorem fill_ok_clean {c : Cell} {v : ℚ}
    (h : evalCell (fillna0 c) = .ok v) : c.isClean = true := by
  cases c with
  | num q => rfl
  | na => rfl
  | text s => exact absurd h (by simp [fillna0, evalCell])

theorem buildRow_ok_clean {t : RawTable} {rr : RawRow} {d : Date} {row : Row}
    (h : buildRow t rr d = .ok row) : rawRowClean t rr = true := by
  unfold buildRow at h
  cases h1 : evalCell (getCost t.hasPuCost rr.puCost) with
  | error e => rw [h1, exBind_error] at h; exact absurd h (by simp)
  | ok v1 =>
  rw [h1, exBind_ok] at h
  cases h2 : evalCell (getCost t.hasShipCost rr.shipCost) with
  | error e => rw [h2, exBind_error] at h; exact absurd h (by simp)
  | ok v2 =>
  rw [h2, exBind_ok] at h
  cases h3 : evalCell (getCost t.hasManCost rr.manCost) with
  | error e => rw [h3, exBind_error] at h; exact absurd h (by simp)
  | ok v3 =>
  rw [h3, exBind_ok] at h
  cases h4 : evalCell (getCost t.hasDelCost rr.delCost) with
  | error e => rw [h4, exBind_error] at h; exact absurd h (by simp)
  | ok v4 =>
  rw [h4, exBind_ok] at h
  cases h5 : evalCell (fillna0 rr.net) with
  | error e => rw [h5, exBind_error] at h; exact absurd h (by simp)
  | ok v5 =>
  simp only [rawRowClean, Bool.and_eq_true]
  exact ⟨⟨⟨⟨getCost_ok_clean h1, getCost_ok_clean h2⟩, getCost_ok_clean h3⟩,
    getCost_ok_clean h4⟩, fill_ok_clean h5⟩

theorem buildRow_error {t : RawTable} {rr : RawRow} {d : Date}
    (h : rawRowClean t rr = false) :
    buildRow t rr d = .error .typeError := by
  rcases buildRow_ok_or t rr d with ⟨row, hrow⟩ | hrow
  · rw [buildRow_ok_clean hrow] at h
    exact absurd h (by simp)
  · exact hrow

theorem zip_self_map {α β : Type _} (g : α → β) :
    ∀ l : List α, l.zip (l.map g) = l.map (fun a => (a, g a))
  | [] => rfl
  | a :: as => by
      simp only [List.map_cons, List.zip_cons_cons, zip_self_map g as]

theorem parseDates_ok {rows : List RawRow}
    (h : ∀ rr ∈ rows, rr.ordDt.isDate = true) :
    collect (fun rr => parseDateCell rr.ordDt) rows
      = .ok (rows.map (fun rr => dOf rr.ordDt)) :=
  collect_map_ok _ (fun rr hrr => parseDateCell_ok (h rr hrr))

theorem load_ok {t : RawTable} (hod : t.hasOrdDt = true) (hnet : t.hasNet = true)
    (hdates : ∀ rr ∈ t.rows, rr.ordDt.isDate = true)
    (hclean : ∀ rr ∈ t.rows, rawRowClean t rr = true) :
    load_and_process_data t
      = .ok (t.rows.map (fun rr => expectedRow t rr (dOf rr.ordDt))) := by
  have hparse := parseDates_ok hdates
  have hzip := zip_self_map (fun rr : RawRow => dOf rr.ordDt) t.rows
  have hbuild : collect (fun p : RawRow × Date => buildRow t p.1 p.2)
      (t.rows.map (fun rr => (rr, dOf rr.ordDt)))
      = .ok (t.rows.map (fun rr => expectedRow t rr (dOf rr.ordDt))) := by
    rw [collect_map_list]
    exact collect_map_ok _ (fun rr hrr => buildRow_ok (hclean rr hrr))
  simp only [load_and_process_data, hod, hnet, if_true, hparse, hzip, hbuild]

theorem load_typeError {t : RawTable} (hod : t.hasOrdDt = true)
    (hnet : t.hasNet = true)
    (hdates : ∀ rr ∈ t.rows, rr.ordDt.isDate = true)
    (hdirty : ∃ rr ∈ t.rows, rawRowClean t rr = false) :
    load_and_process_data t = .error .typeError := by
  have hparse := parseDates_ok hdates
  have hzip := zip_self_map (fun rr : RawRow => dOf rr.ordDt) t.rows
  have hbuild : collect (fun p : RawRow × Date => buildRow t p.1 p.2)
      (t.rows.map (fun rr => (rr, dOf rr.ordDt)))
      = .error .typeError := by
    rw [collect_map_list]
    apply collect_error_of_only
    · intro rr
      rcases buildRow_ok_or t rr (dOf rr.ordDt) with ⟨row, hrow⟩ | hrow
      · exact Or.inl ⟨row, hrow⟩
      · exact Or.inr hrow
    · obtain ⟨rr, hmem, hbad⟩ := hdirty
      exact ⟨rr, hmem, buildRow_error hbad⟩
  simp only [load_and_process_data, hod, hnet, if_true, hparse, hzip, hbuild]

theorem load_parseError {t : RawTable} (hod : t.hasOrdDt = true)
    (hbad : ∃ rr ∈ t.rows, rr.ordDt = .unparseable) :
    load_and_process_data t = .error .parseError := by
  have hparse : collect (fun rr => parseDateCell rr.ordDt) t.rows
      = .error .parseError := by
    apply collect_error_of_only
    · intro rr
      cases h : rr.ordDt with
      | date d => exact Or.inl ⟨d, by simp [parseDateCell, h]⟩
      | unparseable => exact Or.inr (by simp [parseDateCell, h])
    · obtain ⟨rr, hmem, hu⟩ := hbad
      exact ⟨rr, hmem, by simp [parseDateCell, hu]⟩
  simp only [load_and_process_data, hod, if_true, hparse]

theorem load_noNet {t : RawTable} (hod : t.hasOrdDt = true)
    (hnet : t.hasNet = false)
    (hdates : ∀ rr ∈ t.rows, rr.ordDt.isDate = true) :
    load_and_process_data t = .error (.schemaError "NET") := by
  have hparse := parseDates_ok hdates
  simp only [load_and_process_data, hod, hnet, if_true, hparse, if_false,
    Bool.false_eq_true]

theorem mkMonthRow_period (rows : List Row) (k : ℕ × ℕ) :
    (mkMonthRow rows k).period = k := rfl

theorem mem_monthly {rows : List Row} {m : MonthRow}
    (h : m ∈ create_monthly_summary rows) : m = mkMonthRow rows m.period := by
  rcases List.mem_map.mp h with ⟨k, _, hmk⟩
  rw [← hmk, mkMonthRow_period]

theorem periodKey_mem_periodKeys {rows : List Row} {r : Row} (h : r ∈ rows) :
    r.periodKey ∈ periodKeys rows :=
  List.mem_dedup.mpr (List.mem_map_of_mem Row.periodKey h)

theorem sum_map_zero {α : Type _} : ∀ l : List α, (l.map (fun _ => (0 : ℚ))).sum = 0
  | [] => rfl
  | a :: as => by simp [sum_map_zero as]

theorem monthly_margin {rows : List Row} {m : MonthRow}
    (hm : m ∈ create_monthly_summary rows) :
    m.marginPct
      = calculate_margin ((groupRows rows m.period).map Row.profit).sum
          ((groupRows rows m.period).map Row.net).sum := by
  conv_lhs => rw [mem_monthly hm]
  rfl

theorem sortedKeys_exMix : sortedKeys exMix = [(2024, 1)] := by decide

theorem monthly_exMix : create_monthly_summary exMix = [mkMonthRow exMix (2024, 1)] := by
  show (sortedKeys exMix).map (mkMonthRow exMix) = _
  rw [sortedKeys_exMix]
  rfl

/-! The claims. -/

/-- C2: `calculate_margin` returns `profit / revenue * 100` whenever
revenue is nonzero and exactly `0` when revenue is zero; it is a total
function on rationals (never NaN, infinite, or raising), and the same
rule is what produces the dataset-level margin and each period-level
margin. -/
theorem c2_margin_rule :
    (∀ p r : ℚ, r ≠ 0 → calculate_margin p r = p / r * 100) ∧
    (∀ p : ℚ, calculate_margin p 0 = 0) ∧
    (∀ rows : List Row,
        overallMargin rows
          = if totalRevenue rows = 0 then 0
            else totalProfit rows / totalRevenue rows * 100) ∧
    (∀ rows : List Row, ∀ m ∈ create_monthly_summary rows,
        m.marginPct = if m.revenue = 0 then 0 else m.profit / m.revenue * 100) := by
  refine ⟨?_, ?_, ?_, ?_⟩
  · intro p r h; simp [calculate_margin, h]
  · intro p; simp [calculate_margin]
  · intro rows; simp [overallMargin, calculate_margin]
  · intro rows m hm
    conv_lhs => rw [mem_monthly hm]
    conv_rhs => rw [mem_monthly hm]
    simp [mkMonthRow, calculate_margin]

/-- C2 witness: the margin rule applied at concrete inputs, one with
nonzero revenue and one with zero revenue. -/
theorem c2_margin_rule_witness :
    calculate_margin 2800 3500 = 2800 / 3500 * 100 ∧ calculate_margin 5 0 = 0 :=
  ⟨c2_margin_rule.1 2800 3500 (by norm_num), c2_margin_rule.2.1 5⟩

/-- C3: the per-period profit sums of the monthly summary add up to the
dataset-wide total profit, and the four category amounts of the cost
breakdown add up to the dataset-wide total cost - exactly, for every
dataset. -/
theorem c3_sums_consistent :
    ∀ rows : List Row,
      ((create_monthly_summary rows).map MonthRow.profit).sum = totalProfit rows ∧
      ((create_cost_breakdown rows).map BreakdownRow.amount).sum = totalCostsSum rows := by
  intro rows
  constructor
  · have hperm : (sortedKeys rows).Perm (periodKeys rows) :=
      List.perm_insertionSort _ _
    have h1 : (create_monthly_summary rows).map MonthRow.profit
        = (sortedKeys rows).map (fun k => ((groupRows rows k).map Row.profit).sum) := by
      simp only [create_monthly_summary, List.map_map]
      rfl
    rw [h1, (hperm.map (fun k => ((groupRows rows k).map Row.profit).sum)).sum_eq]
    exact sum_over_keys Row.periodKey Row.profit (periodKeys rows)
      (List.nodup_dedup _) rows (fun r hr => periodKey_mem_periodKeys hr)
  · have e1 : List.Perm ((create_cost_breakdown rows).map BreakdownRow.amount)
        ((breakdownBase rows).map Prod.snd) := by
      unfold create_cost_breakdown
      refine ((List.perm_insertionSort amtGe _).map _).trans ?_
      rw [List.map_map]
      exact List.Perm.refl _
    rw [e1.sum_eq, sum_breakdownBase]

/-- C4: every period margin in the monthly summary is `calculate_margin`
applied to the summed profit and summed revenue of that period group;
on the concrete group `exMix` (one profitable row, one zero-revenue row)
the produced margin is 100 while the mean of the per-row margins is 50,
so the two computations genuinely differ and the summed form is the one
produced. -/
theorem c4_margin_of_sums :
    (∀ rows : List Row, ∀ m ∈ create_monthly_summary rows,
        m.marginPct
          = calculate_margin ((groupRows rows m.period).map Row.profit).sum
              ((groupRows rows m.period).map Row.net).sum) ∧
    ((create_monthly_summary exMix).map MonthRow.marginPct = [100] ∧
      meanRowMargins exMix = 50 ∧ (100 : ℚ) ≠ 50) := by
  refine ⟨fun rows m hm => monthly_margin hm, ?_, ?_, by norm_num⟩
  · rw [monthly_exMix]
    norm_num [mkMonthRow, groupRows, exMix, Row.periodKey, Row.profit,
      Row.totalCosts, calculate_margin]
  · norm_num [meanRowMargins, exMix, calculate_margin, Row.profit, Row.totalCosts]

/-- C4 witness: the period-margin equation instantiated on the concrete
dataset `exMix` and its January summary row. -/
theorem c4_margin_of_sums_witness :
    (mkMonthRow exMix (2024, 1)).marginPct
      = calculate_margin
          ((groupRows exMix ((mkMonthRow exMix (2024, 1)).period)).map Row.profit).sum
          ((groupRows exMix ((mkMonthRow exMix (2024, 1)).period)).map Row.net).sum :=
  c4_margin_of_sums.1 exMix (mkMonthRow exMix (2024, 1))
    (by rw [monthly_exMix]; exact List.mem_singleton.mpr rfl)

/-- C5: the period rows of the monthly summary are sorted ascending by
the chronological year-month order on period keys, and permuting the
input rows leaves the summary (hence its period order) unchanged. -/
theorem c5_period_order :
    (∀ rows : List Row,
        List.Sorted perLe ((create_monthly_summary rows).map MonthRow.period)) ∧
    (∀ rows rows2 : List Row, List.Perm rows rows2 →
        create_monthly_summary rows = create_monthly_summary rows2) := by
  constructor
  · intro rows
    have h1 : (create_monthly_summary rows).map MonthRow.period = sortedKeys rows := by
      simp only [create_monthly_summary, List.map_map]
      exact List.map_id' _
    rw [h1]
    exact List.sorted_insertionSort perLe _
  · intro rows rows2 hperm
    have hkeys : sortedKeys rows = sortedKeys rows2 := by
      apply List.eq_of_perm_of_sorted (r := perLe)
      · exact (List.perm_insertionSort _ _).trans
          (((hperm.map Row.periodKey).dedup).trans
            (List.perm_insertionSort _ _).symm)
      · exact List.sorted_insertionSort _ _
      · exact List.sorted_insertionSort _ _
    have hrow : ∀ k, mkMonthRow rows k = mkMonthRow rows2 k := by
      intro k
      have hg : List.Perm (groupRows rows k) (groupRows rows2 k) := hperm.filter _
      unfold mkMonthRow
      simp only [(hg.map Row.net).sum_eq, (hg.map Row.totalCosts).sum_eq,
        (hg.map Row.profit).sum_eq, (hg.map Row.puCost).sum_eq,
        (hg.map Row.shipCost).sum_eq, (hg.map Row.manCost).sum_eq,
        (hg.map Row.delCost).sum_eq, hg.length_eq]
    simp only [create_monthly_summary, hkeys]
    exact List.map_congr_left (fun k _ => hrow k)

/-- C5 witness: reversing a concrete two-row, two-period dataset leaves
the monthly summary unchanged. -/
theorem c5_period_order_witness :
    create_monthly_summary [rowOld, rowNew] = create_monthly_summary [rowNew, rowOld] :=
  c5_period_order.2 [rowOld, rowNew] [rowNew, rowOld] (List.Perm.swap rowNew rowOld [])

theorem breakdown_rowZero : create_cost_breakdown [rowZero]
    = [⟨"Pickup Cost", 0, .nan⟩, ⟨"Shipping Cost", 0, .nan⟩,
       ⟨"Management Cost", 0, .nan⟩, ⟨"Delivery Cost", 0, .nan⟩] := by
  norm_num [create_cost_breakdown, breakdownBase, rowZero, pdiv,
    PFloat.mul100, PFloat.round2, List.insertionSort, List.orderedInsert, amtGe]

/-- C1 counterexample: on a concrete dataset whose four cost categories
all sum to zero, `create_cost_breakdown` reports NaN (the numpy result
of 0/0) for every category percentage, not the claimed 0. -/
theorem c1_counterexample :
    totalCostsSum [rowZero] = 0 ∧
    (create_cost_breakdown [rowZero]).map BreakdownRow.percentage
      = [PFloat.nan, PFloat.nan, PFloat.nan, PFloat.nan] ∧
    PFloat.nan ≠ PFloat.num 0 := by
  refine ⟨?_, ?_, by decide⟩
  · norm_num [totalCostsSum, rowZero, Row.totalCosts]
  · rw [breakdown_rowZero]; rfl

/-- C1 (amended): when the total cost over all four categories is zero,
`create_cost_breakdown` never raises a division error - the division is
total - but instead of the claimed 0 each category percentage is the
IEEE value of the unguarded division by zero: NaN for a category whose
amount is 0, and a signed infinity for a nonzero amount. -/
theorem c1_breakdown_zero_total :
    ∀ rows : List Row, totalCostsSum rows = 0 →
      ∀ b ∈ create_cost_breakdown rows,
        b.percentage = (if b.amount = 0 then PFloat.nan
          else if 0 < b.amount then PFloat.posInf else PFloat.negInf) := by
  intro rows htot b hb
  have htot0 : ((breakdownBase rows).map Prod.snd).sum = 0 := by
    rw [sum_breakdownBase]; exact htot
  unfold create_cost_breakdown at hb
  have hb' := (List.perm_insertionSort amtGe _).mem_iff.mp hb
  rcases List.mem_map.mp hb' with ⟨p, _, rfl⟩
  simp only [htot0]
  by_cases h0 : p.2 = 0
  · simp [pdiv, h0, PFloat.mul100, PFloat.round2]
  · by_cases hpos : 0 < p.2
    · simp [pdiv, h0, hpos, PFloat.mul100, PFloat.round2]
    · simp [pdiv, h0, hpos, PFloat.mul100, PFloat.round2]

/-- C1 witness: the amended statement instantiated on the zero-cost
dataset and its pickup-cost breakdown row. -/
theorem c1_breakdown_zero_total_witness :
    (BreakdownRow.mk "Pickup Cost" 0 PFloat.nan).percentage
      = (if (BreakdownRow.mk "Pickup Cost" 0 PFloat.nan).amount = 0 then PFloat.nan
         else if 0 < (BreakdownRow.mk "Pickup Cost" 0 PFloat.nan).amount
           then PFloat.posInf else PFloat.negInf) :=
  c1_breakdown_zero_total [rowZero]
    (by norm_num [totalCostsSum, rowZero, Row.totalCosts])
    (BreakdownRow.mk "Pickup Cost" 0 PFloat.nan)
    (by rw [breakdown_rowZero]; exact List.mem_cons_self _ _)

/-- C6: a sheet without the revenue column `NET` fails with a
`SchemaError` naming that column and yields no result, while a sheet
without any of the four cost columns succeeds with every cost component
treated as zero: each cost sum is 0, total cost is 0, and total profit
equals total revenue. -/
theorem c6_schema_rules :
    (∀ t : RawTable, t.hasOrdDt = true → t.hasNet = false →
        (∀ rr ∈ t.rows, rr.ordDt.isDate = true) →
        load_and_process_data t = .error (.schemaError "NET")) ∧
    (∀ t : RawTable, t.hasOrdDt = true → t.hasNet = true →
        t.hasPuCost = false → t.hasShipCost = false →
        t.hasManCost = false → t.hasDelCost = false →
        (∀ rr ∈ t.rows, rr.ordDt.isDate = true) →
        (∀ rr ∈ t.rows, rr.net.isClean = true) →
        ∃ rows, load_and_process_data t = .ok rows ∧
          (rows.map Row.puCost).sum = 0 ∧ (rows.map Row.shipCost).sum = 0 ∧
          (rows.map Row.manCost).sum = 0 ∧ (rows.map Row.delCost).sum = 0 ∧
          totalCostsSum rows = 0 ∧
          totalProfit rows = totalRevenue rows) := by
  constructor
  · intro t h1 h2 h3
    exact load_noNet h1 h2 h3
  · intro t hod hnet hpu hship hman hdel hdates hclean
    have hcleanAll : ∀ rr ∈ t.rows, rawRowClean t rr = true := by
      intro rr hrr
      simp [rawRowClean, hpu, hship, hman, hdel, hclean rr hrr]
    refine ⟨_, load_ok hod hnet hdates hcleanAll, ?_, ?_, ?_, ?_, ?_, ?_⟩
    · simp only [List.map_map]
      have hz : (Row.puCost ∘ fun rr => expectedRow t rr (dOf rr.ordDt))
          = fun _ => (0 : ℚ) := funext fun rr => by simp [expectedRow, hpu]
      rw [hz, sum_map_zero]
    · simp only [List.map_map]
      have hz : (Row.shipCost ∘ fun rr => expectedRow t rr (dOf rr.ordDt))
          = fun _ => (0 : ℚ) := funext fun rr => by simp [expectedRow, hship]
      rw [hz, sum_map_zero]
    · simp only [List.map_map]
      have hz : (Row.manCost ∘ fun rr => expectedRow t rr (dOf rr.ordDt))
          = fun _ => (0 : ℚ) := funext fun rr => by simp [expectedRow, hman]
      rw [hz, sum_map_zero]
    · simp only [List.map_map]
      have hz : (Row.delCost ∘ fun rr => expectedRow t rr (dOf rr.ordDt))
          = fun _ => (0 : ℚ) := funext fun rr => by simp [expectedRow, hdel]
      rw [hz, sum_map_zero]
    · simp only [totalCostsSum, List.map_map]
      have hz : (Row.totalCosts ∘ fun rr => expectedRow t rr (dOf rr.ordDt))
          = fun _ => (0 : ℚ) :=
        funext fun rr => by
          simp [Row.totalCosts, expectedRow, hpu, hship, hman, hdel]
      rw [hz, sum_map_zero]
    · simp only [totalProfit, totalRevenue, List.map_map]
      have hz : (Row.profit ∘ fun rr => expectedRow t rr (dOf rr.ordDt))
          = (Row.net ∘ fun rr => expectedRow t rr (dOf rr.ordDt)) :=
        funext fun rr => by
          simp [Row.profit, Row.totalCosts, expectedRow, hpu, hship, hman, hdel]
      rw [hz]

/-- C6 witness: the schema rules applied to a concrete sheet missing
`NET` and a concrete sheet missing all four cost columns. -/
theorem c6_schema_rules_witness :
    load_and_process_data tNoNet = .error (.schemaError "NET") ∧
    (∃ rows, load_and_process_data tNoCosts = .ok rows ∧
      (rows.map Row.puCost).sum = 0 ∧ (rows.map Row.shipCost).sum = 0 ∧
      (rows.map Row.manCost).sum = 0 ∧ (rows.map Row.delCost).sum = 0 ∧
      totalCostsSum rows = 0 ∧
      totalProfit rows = totalRevenue rows) :=
  ⟨c6_schema_rules.1 tNoNet rfl rfl (by decide),
   c6_schema_rules.2 tNoCosts rfl rfl rfl rfl rfl rfl (by decide) (by decide)⟩

/-- C7: a single unparseable order-date cell makes the whole run fail
with a `ParseError`; no partial summary over the remaining rows is
produced. -/
theorem c7_parse_abort :
    ∀ t : RawTable, t.hasOrdDt = true →
      (∃ rr ∈ t.rows, rr.ordDt = .unparseable) →
      load_and_process_data t = .error .parseError :=
  fun _ h1 h2 => load_parseError h1 h2

/-- C7 witness: a sheet with one good row and one unparseable date fails
as a whole. -/
theorem c7_parse_abort_witness :
    load_and_process_data tBadDate = .error .parseError :=
  c7_parse_abort tBadDate rfl
    ⟨rrBad, List.mem_cons_of_mem rrGood (List.mem_cons_self rrBad []), rfl⟩

/-- C8 counterexample: a non-numeric text value in a cost cell is NOT
coerced to 0 - `fillna(0)` leaves it untouched - and it aborts the whole
run with a `TypeError` instead of contributing 0 to the sums. -/
theorem c8_counterexample :
    fillna0 (Cell.text "N/A") = Cell.text "N/A" ∧
    Cell.text "N/A" ≠ Cell.num 0 ∧
    load_and_process_data tTextCost = .error .typeError :=
  ⟨rfl, by decide, rfl⟩

/-- C8 (amended): during normalization each MISSING (NaN) monetary value
is coerced to 0 - a sheet whose monetary cells are all numeric or empty
loads into exactly the rows whose fields are the cell values with
missing as 0 - but a genuinely non-numeric text value is not coerced: it
survives `fillna(0)` and aborts the whole run with a `TypeError`. -/
theorem c8_fillna_rules :
    (∀ t : RawTable, t.hasOrdDt = true → t.hasNet = true →
        (∀ rr ∈ t.rows, rr.ordDt.isDate = true) →
        (∀ rr ∈ t.rows, rawRowClean t rr = true) →
        load_and_process_data t
          = .ok (t.rows.map (fun rr => expectedRow t rr (dOf rr.ordDt)))) ∧
    (∀ t : RawTable, t.hasOrdDt = true → t.hasNet = true →
        (∀ rr ∈ t.rows, rr.ordDt.isDate = true) →
        (∃ rr ∈ t.rows, rawRowClean t rr = false) →
        load_and_process_data t = .error .typeError) :=
  ⟨fun _ h1 h2 h3 h4 => load_ok h1 h2 h3 h4,
   fun _ h1 h2 h3 h4 => load_typeError h1 h2 h3 h4⟩

/-- C8 witness: a sheet with several empty monetary cells loads with
those fields as 0, and a sheet with a text cost cell aborts. -/
theorem c8_fillna_rules_witness :
    load_and_process_data tNaCells
      = .ok (tNaCells.rows.map (fun rr => expectedRow tNaCells rr (dOf rr.ordDt))) ∧
    load_and_process_data tTextCost = .error .typeError :=
  ⟨c8_fillna_rules.1 tNaCells rfl rfl (by decide) (by decide),
   c8_fillna_rules.2 tTextCost rfl rfl (by decide)
     ⟨rrText, List.mem_cons_self _ _, rfl⟩⟩

/-- C9 counterexample: a concrete loadable dataset whose rows arrive
oldest-first is exported by the CSV download in that same unsorted
order, so the downloadable export is not sorted by descending order
date. -/
theorem c9_counterexample :
    load_and_process_data tTwoOrders = .ok [rowOld, rowNew] ∧
    csvRawExport [rowOld, rowNew] = [rowOld, rowNew] ∧
    Date.le rowOld.ordDt rowNew.ordDt ∧ rowOld.ordDt ≠ rowNew.ordDt ∧
    ¬ List.Pairwise rowDateGe (csvRawExport [rowOld, rowNew]) := by
  refine ⟨rfl, rfl, by decide, by decide, ?_⟩
  intro h
  have h2 := List.rel_of_pairwise_cons h (List.mem_cons_self rowNew [])
  exact absurd h2 (by decide)

/-- C9 (amended): it is the on-screen raw-data table that is sorted by
descending order date; the downloadable CSV export writes the enriched
dataset in its existing row order, unsorted. -/
theorem c9_raw_order :
    ∀ rows : List Row,
      List.Pairwise rowDateGe (rawDisplay rows) ∧ csvRawExport rows = rows :=
  fun rows => ⟨List.sorted_insertionSort rowDateGe rows, rfl⟩

/-- C10: a schema-complete sheet with zero rows loads successfully into
an empty dataset, but `main` then fails - formatting the date range
calls `strftime` on the NaT that `min`/`max` return for an empty column,
which raises - so the empty dataset is a crash, not a degenerate
zero-total summary. -/
theorem c10_empty_crash :
    ∀ t : RawTable, t.hasOrdDt = true → t.hasNet = true → t.rows = [] →
      load_and_process_data t = .ok [] ∧ runMain t = .error .emptyDateRange := by
  intro t hod hnet hrows
  have hload : load_and_process_data t = .ok [] := by
    have h := load_ok hod hnet
      (fun rr hrr => by rw [hrows] at hrr; exact absurd hrr (List.not_mem_nil rr))
      (fun rr hrr => by rw [hrows] at hrr; exact absurd hrr (List.not_mem_nil rr))
    rw [hrows] at h
    exact h
  refine ⟨hload, ?_⟩
  unfold runMain
  rw [hload]
  rfl

/-- C10 witness: the concrete empty sheet loads but `runMain` fails on
the empty date range. -/
theorem c10_empty_crash_witness :
    load_and_process_data tEmpty = .ok [] ∧ runMain tEmpty = .error .emptyDateRange :=
  c10_empty_crash tEmpty rfl rfl rfl

end SRProfit
